import Mathlib

/-!
# Verification of the Amenity Finder app

A shallow embedding of `app.py`, the single source file of this repository.
Floats are modelled as rationals; the route length returned by the routing
library is a rational, lifted to `WithTop ℚ` so that the `float('inf')`
sentinel used by `calculate_route` is `⊤`.  The external libraries
(`osmnx`, `networkx`, `folium`, `requests`, `streamlit`) are modelled as
explicit data: abstract function records for the graph library, a response
record for HTTP, and a list of map elements for the folium map.
-/

namespace AmenityFinder

/-- A 2-D point with shapely-style `x`/`y` coordinates (rationals stand in
for floats). -/
structure Pt where
  x : ℚ
  y : ℚ
deriving DecidableEq, Repr

/-- A polygon, given by its list of vertices (the shapely exterior ring). -/
structure Poly where
  vertices : List Pt
deriving DecidableEq, Repr

/-- Consecutive edges of the polygon ring, wrapping around at the end. -/
def polyEdges (vs : List Pt) : List (Pt × Pt) :=
  match vs with
  | [] => []
  | v :: _ => vs.zip (vs.drop 1 ++ [v])

/-- Twice the shoelace signed area of the polygon. -/
def Poly.signedAreaTwice (p : Poly) : ℚ :=
  ((polyEdges p.vertices).map (fun e => e.1.x * e.2.y - e.2.x * e.1.y)).sum

/-- The area-weighted centroid of a polygon, as shapely's
`Polygon.centroid` computes it (standard shoelace centroid formula). -/
def Poly.centroid (p : Poly) : Pt :=
  let a2 := p.signedAreaTwice
  let cx := ((polyEdges p.vertices).map
    (fun e => (e.1.x + e.2.x) * (e.1.x * e.2.y - e.2.x * e.1.y))).sum
  let cy := ((polyEdges p.vertices).map
    (fun e => (e.1.y + e.2.y) * (e.1.x * e.2.y - e.2.x * e.1.y))).sum
  { x := cx / (3 * a2), y := cy / (3 * a2) }

/-- Geometry of a fetched amenity feature.  Per the OSM feature model the
amenities handled by the app are points or polygons. -/
inductive Geometry
  | point (p : Pt)
  | polygon (poly : Poly)
deriving DecidableEq, Repr

/-- A shapely geometry as it may arrive at the marker-placement code:
besides `Point` and `Polygon` there are other geometry classes
(e.g. `LineString`), for which the `if isinstance ... elif isinstance ...`
chain at app.py:132-137 binds nothing. -/
inductive ShapelyGeom
  | point (p : Pt)
  | polygon (poly : Poly)
  | otherGeom
deriving DecidableEq, Repr

/-- The coordinates bound by the marker-placement branch at
app.py:132-137: `(geometry.y, geometry.x)` for a `Point`,
`(geometry.centroid.y, geometry.centroid.x)` for a `Polygon`, and nothing
(the variables stay unbound) for any other geometry class. -/
def markerCoords : ShapelyGeom → Option (ℚ × ℚ)
  | .point p => some (p.y, p.x)
  | .polygon poly => some (poly.centroid.y, poly.centroid.x)
  | .otherGeom => none

/-- Injection of the app's point-or-polygon geometries into the shapely
geometry universe. -/
def Geometry.toShapely : Geometry → ShapelyGeom
  | .point p => .point p
  | .polygon poly => .polygon poly

/-- The `(lat, lon)` pair used for a row's `CircleMarker`
(app.py:132-147), restricted to the geometries the app receives. -/
def amenityCoords : Geometry → ℚ × ℚ
  | .point p => (p.y, p.x)
  | .polygon poly => (poly.centroid.y, poly.centroid.x)

/-! ## HTTP layer and property fetching (app.py:20-42) -/

/-- A `requests` response: status code plus the value `response.json()`
would produce. -/
structure HttpResponse (α : Type) where
  status_code : Nat
  json : α
deriving DecidableEq, Repr

/-- One entry of the property list returned by the backend. -/
structure Property where
  id : Nat
  title : String
  slug : String
deriving DecidableEq, Repr

/-- The property-details JSON object; only the keys the app reads are
modelled as fields, the rest of the dict is `others`. -/
structure PropertyDetails where
  thumbnail : Option String
  location_value : Option String
  others : List (String × String)
deriving DecidableEq, Repr

/-- The empty dict `\x7b\x7d` returned by `fetch_property_details` on failure. -/
def PropertyDetails.empty : PropertyDetails := ⟨none, none, []⟩

/-- Python truthiness of the details dict (`if property_details and ...`). -/
def PropertyDetails.isTruthy (d : PropertyDetails) : Bool :=
  d.thumbnail.isSome || d.location_value.isSome || !d.others.isEmpty

/-- app.py:20. -/
def property_list_url : String :=
  "https://backend.lalpurjanepal.com.np/properties/all-properties/"

/-- app.py:21. -/
def property_detail_url_template : String :=
  "https://backend.lalpurjanepal.com.np/properties/properties/\x7b\x7d"

/-- app.py:37: `property_detail_url_template.format(property_id)`.
Python `str.format` with one positional argument splices the argument in
place of the `\x7b\x7d` placeholder; the template is the backend prefix
followed by the placeholder (proved below), so the result is that prefix
with the argument appended. -/
def property_detail_url (property_id : String) : String :=
  "https://backend.lalpurjanepal.com.np/properties/properties/" ++ property_id

/-- app.py:24-32, as a function of the HTTP response to
`GET property_list_url`.  Returns the value together with whether
`st.error` was displayed. -/
def fetch_property_list (resp : HttpResponse (List Property)) :
    List Property × Bool :=
  if resp.status_code = 200 then (resp.json, false) else ([], true)

/-- app.py:34-42, as a function of the HTTP response to
`GET property_detail_url_template.format(property_id)`.  Returns the value
together with whether `st.error` was displayed. -/
def fetch_property_details (resp : HttpResponse PropertyDetails) :
    PropertyDetails × Bool :=
  if resp.status_code = 200 then (resp.json, false) else (PropertyDetails.empty, true)

/-! ## `st.cache_data` (app.py:24, 34)

Within a session, `st.cache_data` memoises a function on its arguments:
the first call computes and stores the value, later calls with the same
arguments return the stored value without re-running the body.  The
network is held fixed during a session as the response-valued inputs. -/

/-- Cached `fetch_property_list` (no arguments, so the cache is a single
optional slot).  Returns the value and the new cache. -/
def cachedFetchList (net : HttpResponse (List Property))
    (cache : Option (List Property)) :
    List Property × Option (List Property) :=
  match cache with
  | some v => (v, some v)
  | none =>
    let v := (fetch_property_list net).1
    (v, some v)

/-- Cached `fetch_property_details`, keyed on `property_id`. -/
def cachedFetchDetails (net : Nat → HttpResponse PropertyDetails)
    (cache : List (Nat × PropertyDetails)) (property_id : Nat) :
    PropertyDetails × List (Nat × PropertyDetails) :=
  match cache.lookup property_id with
  | some v => (v, cache)
  | none =>
    let v := (fetch_property_details (net property_id)).1
    (v, (property_id, v) :: cache)

/-! ## OpenStreetMap features (app.py:83-87)

`ox.features_from_point(point, tags, dist)` returns the OSM features
within `dist` meters of `point` whose tags match the `tags` query.  The
OSM world and its metric are modelled as data. -/

/-- An OSM feature: its tag key/value pairs and its geometry. -/
structure OsmFeature where
  tags : List (String × String)
  geometry : Geometry
deriving DecidableEq, Repr

/-- The OSM data the external library draws from: a set of features and
the geodesic distance from a query point to a feature. -/
structure OsmWorld where
  features : List OsmFeature
  distTo : (ℚ × ℚ) → OsmFeature → ℚ

/-- A feature matches a tag query `\x7bkey: [v1, v2, ...]\x7d` when it has one
of the listed values under one of the listed keys. -/
def matchesTags (tags : List (String × List String)) (f : OsmFeature) : Bool :=
  tags.any (fun kv => f.tags.any (fun t => t.1 == kv.1 && kv.2.contains t.2))

/-- `ox.features_from_point`: features within `dist` of `point` whose tags
match the query. -/
def features_from_point (w : OsmWorld) (point : ℚ × ℚ)
    (tags : List (String × List String)) (dist : ℚ) : List OsmFeature :=
  w.features.filter (fun f => decide (w.distTo point f ≤ dist) && matchesTags tags f)

/-- app.py:83-87: fetch amenities with the tag query
`\x7b'amenity': selected_amenities\x7d` and `dist = radius`. -/
def fetch_amenities (w : OsmWorld) (place_point : ℚ × ℚ) (radius : ℚ)
    (selected_amenities : List String) : List OsmFeature :=
  features_from_point w place_point [("amenity", selected_amenities)] radius

/-! ## Street-network graph and routing (app.py:78-101) -/

/-- The street-network multigraph, exposed through the node attributes the
app reads: `graph.nodes[n]['y']` and `graph.nodes[n]['x']`. -/
structure Graph where
  nodeY : Nat → ℚ
  nodeX : Nat → ℚ

/-- The `osmnx` calls the app makes, as an abstract function record.
`graph_from_point` takes the center point, `dist` and `network_type`;
`nearest_nodes` takes the graph and the `X`/`Y` coordinates. -/
structure OxLib where
  graph_from_point : (ℚ × ℚ) → ℚ → String → Graph
  nearest_nodes : Graph → ℚ → ℚ → Nat

/-- The `networkx` calls the app makes.  `shortest_path` returns `none`
where the library would raise `NetworkXNoPath`; `shortest_path_length`
is the length of that path under the given weight attribute, meaningful
whenever a path exists.  The last argument is the `weight` keyword. -/
structure NxLib where
  shortest_path : Graph → Nat → Nat → String → Option (List Nat)
  shortest_path_length : Graph → Nat → Nat → String → ℚ

/-- app.py:78-81: fetch the walking network graph around the point. -/
def fetch_graph (oxl : OxLib) (place_point : ℚ × ℚ) (radius : ℚ) : Graph :=
  oxl.graph_from_point place_point radius "walk"

/-- app.py:91-92: the destination point used by `calculate_route` — the
centroid when the destination geometry is a Polygon, the point itself
otherwise. -/
def destPointOf : Geometry → Pt
  | .polygon poly => poly.centroid
  | .point p => p

/-- app.py:90-101: `calculate_route`.  Finds the nearest graph node to
the destination point and returns the shortest path's `(lat, lon)` node
coordinates and its length, or `([], ⊤)` when `NetworkXNoPath` is
raised. -/
def calculate_route (nxl : NxLib) (oxl : OxLib) (graph : Graph)
    (orig_node : Nat) (dest_geom : Geometry) : List (ℚ × ℚ) × WithTop ℚ :=
  let dest_point : Pt := destPointOf dest_geom
  let dest_node := oxl.nearest_nodes graph dest_point.x dest_point.y
  match nxl.shortest_path graph orig_node dest_node "length" with
  | some route =>
      (route.map (fun node => (graph.nodeY node, graph.nodeX node)),
       ((nxl.shortest_path_length graph orig_node dest_node "length" : ℚ) : WithTop ℚ))
  | none => ([], ⊤)

/-- The route computation as the specification words it: a route from the
origin node to the graph node nearest the amenity's geometry (the
centroid first when the geometry is a Polygon), as the shortest path
weighted by edge attribute `length`, returned as the route's `(lat, lon)`
node coordinates together with its length; with no connecting path the
route is empty and the length infinite. -/
def routeSpecForm (nxl : NxLib) (oxl : OxLib) (graph : Graph)
    (orig_node : Nat) (dest_geom : Geometry) : List (ℚ × ℚ) × WithTop ℚ :=
  let target : Pt :=
    match dest_geom with
    | .polygon poly => poly.centroid
    | .point p => p
  let nearest := oxl.nearest_nodes graph target.x target.y
  match nxl.shortest_path graph orig_node nearest "length" with
  | some path =>
      (path.map (fun node => (graph.nodeY node, graph.nodeX node)),
       ((nxl.shortest_path_length graph orig_node nearest "length" : ℚ) : WithTop ℚ))
  | none => ([], ⊤)

/-! ## Folium map and the facility table (app.py:104-177) -/

/-- The folium overlays the app creates. -/
inductive MapElem
  | marker (location : ℚ × ℚ) (tooltip : String) (draggable : Bool)
  | circleMarker (location : ℚ × ℚ) (radius : Nat) (color : String)
      (fill_color : String) (fill_opacity : ℚ) (popup : String)
  | polyline (coords : List (ℚ × ℚ)) (color : String) (weight : ℚ)
deriving DecidableEq, Repr

/-- A folium map: center `location`, `zoom_start`, and the overlays added
to it, in order. -/
structure FoliumMap where
  location : ℚ × ℚ
  zoom_start : Nat
  elems : List MapElem
deriving DecidableEq, Repr

/-- One row of the facility results table (app.py:151-156).  The distance
is kept as a number; the source formats it as a string. -/
structure FacilityRow where
  amenity : String
  nearestName : String
  distanceMeters : WithTop ℚ
  totalWithinRadius : Nat
deriving DecidableEq, Repr

/-- The `marker_colors` dict at app.py:107-112. -/
def marker_colors : List (String × String) :=
  [("hospital", "red"), ("school", "blue"), ("pharmacy", "green"),
   ("atm", "orange"), ("restaurant", "purple"), ("hotel", "darkblue"),
   ("college", "cadetblue"), ("police", "darkred"), ("gym", "lightgreen"),
   ("bus_station", "darkgreen"), ("supermarket", "lightblue")]

/-- `marker_colors.get(amenity_type, 'blue')`. -/
def markerColorGet (ty : String) : String :=
  (marker_colors.lookup ty).getD "blue"

/-- Python `str.capitalize`: first character uppercased, the rest
lowercased. -/
def pyCapitalize (s : String) : String :=
  match s.toList with
  | [] => ""
  | c :: cs => String.mk (c.toUpper :: cs.map Char.toLower)

/-- One row of the amenity GeoDataFrame, exposing the columns the app
reads: the `amenity` tag value, the optional `name`, and the geometry. -/
structure Row where
  amenity : String
  name : Option String
  geometry : Geometry
deriving DecidableEq, Repr

/-- `pandas.unique` on the `amenity` column: the distinct values in order
of first occurrence. -/
def uniqueKeepFirst : List String → List String
  | [] => []
  | a :: as => a :: uniqueKeepFirst (as.filter (fun x => x != a))
termination_by l => l.length
decreasing_by
  simp only [List.length_cons]
  exact Nat.lt_succ_of_le (List.length_filter_le _ _)

/-- The inner `for _, row in filtered_gdf.iterrows()` loop at
app.py:120-147: threads the `(nearest_row, nearest_distance)` pair and
appends each row's polyline (when the route is non-empty) and circle
marker to the map elements. -/
def processRows (nxl : NxLib) (oxl : OxLib) (graph : Graph) (orig_node : Nat)
    (radius : ℚ) (ty : String) :
    List Row → Option Row × WithTop ℚ → List MapElem →
    (Option Row × WithTop ℚ) × List MapElem
  | [], acc, elems => (acc, elems)
  | row :: rest, acc, elems =>
    let rc := calculate_route nxl oxl graph orig_node row.geometry
    let acc' :=
      if rc.2 ≤ (radius : WithTop ℚ) ∧ rc.2 < acc.2 then (some row, rc.2) else acc
    let elems' := elems ++
      (if rc.1 = [] then [] else [MapElem.polyline rc.1 (markerColorGet ty) (5/2)]) ++
      [MapElem.circleMarker (amenityCoords row.geometry) 6 (markerColorGet ty)
        (markerColorGet ty) (7/10) (pyCapitalize ty)]
    processRows nxl oxl graph orig_node radius ty rest acc' elems'

/-- One iteration of the outer `for amenity_type in gdf['amenity'].unique()`
loop: the map elements this type adds and its (optional) table row. -/
def processType (nxl : NxLib) (oxl : OxLib) (graph : Graph) (orig_node : Nat)
    (radius : ℚ) (gdf : List Row) (ty : String) :
    List MapElem × Option FacilityRow :=
  let filtered := gdf.filter (fun r => r.amenity == ty)
  let res := processRows nxl oxl graph orig_node radius ty filtered (none, ⊤) []
  (res.2, res.1.1.map (fun r =>
    { amenity := pyCapitalize ty,
      nearestName := r.name.getD "Unnamed",
      distanceMeters := res.1.2,
      totalWithinRadius := filtered.length }))

/-- app.py:104-159: `generate_facility_insights_and_add_routes`.  The
folium map is passed in and returned with the overlays appended; the
second component is the facility table. -/
def generate_facility_insights_and_add_routes (nxl : NxLib) (oxl : OxLib)
    (m : FoliumMap) (_point : ℚ × ℚ) (gdf : List Row) (graph : Graph)
    (orig_node : Nat) (radius : ℚ) : FoliumMap × List FacilityRow :=
  let types := uniqueKeepFirst (gdf.map (·.amenity))
  let res := types.foldl
    (fun acc ty =>
      let pr := processType nxl oxl graph orig_node radius gdf ty
      (acc.1 ++ pr.1, acc.2 ++ pr.2.toList))
    ([], [])
  ({ m with elems := m.elems ++ res.1 }, res.2)

/-- app.py:162-177: `create_map`.  Builds the map centered at
`[lat, lon]` with `zoom_start=14`, adds the non-draggable property
marker, and runs the facility generation when amenities, graph and origin
node are all provided. -/
def create_map (nxl : NxLib) (oxl : OxLib) (lat lon radius : ℚ)
    (gdf_amenities : Option (List Row)) (graph : Option Graph)
    (orig_node : Option Nat) : FoliumMap × List FacilityRow :=
  let m : FoliumMap :=
    { location := (lat, lon), zoom_start := 14,
      elems := [MapElem.marker (lat, lon) "Property Location" false] }
  match gdf_amenities, graph, orig_node with
  | some gdf, some g, some orig =>
      generate_facility_insights_and_add_routes nxl oxl m (lat, lon) gdf g orig radius
  | _, _, _ => (m, [])

/-! ## Main script flow (app.py:15-18, 44-70, 179-198) -/

/-- `st.session_state` before the script runs, for the two keys the
script touches (a key may be absent). -/
structure SessionStateIn where
  latitude_input : Option ℚ
  longitude_input : Option ℚ
deriving DecidableEq, Repr

/-- `st.session_state` after the initialization at app.py:15-18: each of
the two keys is set to its default when absent. -/
structure SessionState where
  latitude_input : ℚ
  longitude_input : ℚ
deriving DecidableEq, Repr

/-- app.py:15-18. -/
def initSessionState (s : SessionStateIn) : SessionState :=
  { latitude_input := s.latitude_input.getD (27.7172 : ℚ),
    longitude_input := s.longitude_input.getD (85.3240 : ℚ) }

/-- The `property_options` dict at app.py:48, as the association list
`title ↦ (id, slug)`; a later duplicate title overrides an earlier one,
so lookups search from the end. -/
def property_options (properties : List Property) : List (String × Nat × String) :=
  properties.map (fun p => (p.title, p.id, p.slug))

/-- Python `str.split(",")` on the underlying character list. -/
def splitCharsOnComma : List Char → List (List Char)
  | [] => [[]]
  | c :: rest =>
    match splitCharsOnComma rest with
    | [] => [[]]
    | cur :: parts =>
      if c = ',' then [] :: cur :: parts else (c :: cur) :: parts

/-- Python `str.split(",")`. -/
def splitStringOnComma (s : String) : List String :=
  (splitCharsOnComma s.data).map String.mk

/-- The `location_value` branch at app.py:59-63:
`map(float, location_value.split(","))` unpacked into `(lat, lon)`, with
the numeric parse abstracted as `parseFloat`.  `none` models the crash
when the split does not yield exactly two parts. -/
def parseLocationValue (parseFloat : String → ℚ) (lv : String) : Option (ℚ × ℚ) :=
  match (splitStringOnComma lv).map parseFloat with
  | [a, b] => some (a, b)
  | _ => none

/-- app.py:59-63 and 68-70: the `(latitude, longitude)` the script works
with, given the fetched property list and (when one is selected) the
fetched details.  `none` models a crash in the location parse. -/
def chooseLatLon (parseFloat : String → ℚ) (properties : List Property)
    (details : PropertyDetails) : Option (ℚ × ℚ) :=
  match properties with
  | [] => some ((27.7172 : ℚ), (85.3240 : ℚ))
  | _ :: _ =>
    if details.isTruthy then
      match details.location_value with
      | some lv => parseLocationValue parseFloat lv
      | none => some ((27.7172 : ℚ), (85.3240 : ℚ))
    else some ((27.7172 : ℚ), (85.3240 : ℚ))

/-- The inputs the script reads besides `st.session_state`: the network,
the external libraries, the OSM world, and the sidebar widget values. -/
structure AppInputs where
  netList : HttpResponse (List Property)
  netDetail : Nat → HttpResponse PropertyDetails
  parseFloat : String → ℚ
  world : OsmWorld
  oxl : OxLib
  nxl : NxLib
  /-- The title picked in the `st.sidebar.selectbox` (one of the option
  keys whenever properties exist). -/
  selectedTitle : String
  radius : ℚ
  selected_amenities : List String

/-- The `(latitude, longitude)` the script computes from its inputs
(app.py:45-70): the selected property's parsed `location_value`, or the
Kathmandu default.  `none` models a crash (selectbox key missing from the
options dict, or a malformed `location_value`). -/
def appLatLon (inp : AppInputs) : Option (ℚ × ℚ) :=
  let properties := (fetch_property_list inp.netList).1
  match properties with
  | [] => some ((27.7172 : ℚ), (85.3240 : ℚ))
  | p :: ps =>
    match (property_options (p :: ps)).reverse.lookup inp.selectedTitle with
    | none => none
    | some prop =>
      let details := (fetch_property_details (inp.netDetail prop.1)).1
      chooseLatLon inp.parseFloat (p :: ps) details

/-- What the script renders. -/
structure AppOutput where
  map : FoliumMap
  table : List FacilityRow
deriving DecidableEq, Repr

/-- app.py:179-198 given the location: fetch amenities when some types
are selected, fetch the walking graph, find the origin node, and build
the map and table. -/
def appTab1 (inp : AppInputs) (latitude longitude : ℚ) : AppOutput :=
  let gdf_amenities : Option (List Row) :=
    if inp.selected_amenities ≠ [] then
      some ((fetch_amenities inp.world (latitude, longitude) inp.radius
        inp.selected_amenities).map (fun f =>
          { amenity := (f.tags.lookup "amenity").getD "",
            name := f.tags.lookup "name",
            geometry := f.geometry }))
    else none
  let G := fetch_graph inp.oxl (latitude, longitude) inp.radius
  let orig_node := inp.oxl.nearest_nodes G longitude latitude
  let res := create_map inp.nxl inp.oxl latitude longitude inp.radius
    gdf_amenities (some G) (some orig_node)
  { map := res.1, table := res.2 }

/-- One run of the whole script as a function of its inputs and the
incoming session state. -/
def appRun (inp : AppInputs) (ssIn : SessionStateIn) : Option AppOutput :=
  let _ss := initSessionState ssIn
  match appLatLon inp with
  | none => none
  | some ll => some (appTab1 inp ll.1 ll.2)

/-! ## Helper functions describing the loops -/

/-- The route `calculate_route` computes for a row's geometry. -/
def routeOf (nxl : NxLib) (oxl : OxLib) (graph : Graph) (orig_node : Nat)
    (r : Row) : List (ℚ × ℚ) × WithTop ℚ :=
  calculate_route nxl oxl graph orig_node r.geometry

/-- The map elements one row contributes: its polyline (when the route is
non-empty) followed by its circle marker. -/
def rowMapElems (nxl : NxLib) (oxl : OxLib) (graph : Graph) (orig_node : Nat)
    (ty : String) (rows : List Row) : List MapElem :=
  rows.flatMap (fun row =>
    let rc := routeOf nxl oxl graph orig_node row
    (if rc.1 = [] then [] else [MapElem.polyline rc.1 (markerColorGet ty) (5/2)]) ++
    [MapElem.circleMarker (amenityCoords row.geometry) 6 (markerColorGet ty)
      (markerColorGet ty) (7/10) (pyCapitalize ty)])

/-- The `(nearest_row, nearest_distance)` state after the inner loop. -/
def nearestAcc (nxl : NxLib) (oxl : OxLib) (graph : Graph) (orig_node : Nat)
    (radius : ℚ) : List Row → Option Row × WithTop ℚ → Option Row × WithTop ℚ
  | [], acc => acc
  | row :: rest, acc =>
    let l := (routeOf nxl oxl graph orig_node row).2
    nearestAcc nxl oxl graph orig_node radius rest
      (if l ≤ (radius : WithTop ℚ) ∧ l < acc.2 then (some row, l) else acc)

/-- The minimum route length among the rows whose route length is within
the radius (`⊤` when there is none). -/
def minEligible (nxl : NxLib) (oxl : OxLib) (graph : Graph) (orig_node : Nat)
    (radius : ℚ) (rows : List Row) : WithTop ℚ :=
  (((rows.map (fun r => (routeOf nxl oxl graph orig_node r).2)).filter
    (fun l => decide (l ≤ (radius : WithTop ℚ)))).foldr min ⊤)

/-- Element kind discriminators. -/
def MapElem.isMarkerElem : MapElem → Bool
  | .marker .. => true
  | _ => false

def MapElem.isCircleElem : MapElem → Bool
  | .circleMarker .. => true
  | _ => false

def MapElem.isPolylineElem : MapElem → Bool
  | .polyline .. => true
  | _ => false

/-! ## Lemmas about the inner loop -/

lemma processRows_eq (nxl : NxLib) (oxl : OxLib) (graph : Graph)
    (orig_node : Nat) (radius : ℚ) (ty : String) :
    ∀ (rows : List Row) (acc : Option Row × WithTop ℚ) (elems : List MapElem),
    processRows nxl oxl graph orig_node radius ty rows acc elems =
      (nearestAcc nxl oxl graph orig_node radius rows acc,
       elems ++ rowMapElems nxl oxl graph orig_node ty rows) := by
  intro rows
  induction rows with
  | nil => intro acc elems; simp [processRows, nearestAcc, rowMapElems]
  | cons row rest ih =>
    intro acc elems
    simp only [processRows, nearestAcc, rowMapElems, List.flatMap_cons, routeOf]
    rw [ih]
    simp [rowMapElems, routeOf, List.append_assoc]

lemma minEligible_cons (nxl : NxLib) (oxl : OxLib) (graph : Graph)
    (orig_node : Nat) (radius : ℚ) (row : Row) (rest : List Row) :
    minEligible nxl oxl graph orig_node radius (row :: rest) =
      if (routeOf nxl oxl graph orig_node row).2 ≤ (radius : WithTop ℚ) then
        min (routeOf nxl oxl graph orig_node row).2
          (minEligible nxl oxl graph orig_node radius rest)
      else minEligible nxl oxl graph orig_node radius rest := by
  by_cases h : (routeOf nxl oxl graph orig_node row).2 ≤ (radius : WithTop ℚ) <;>
    simp [minEligible, List.filter_cons, h]

lemma nearestAcc_snd (nxl : NxLib) (oxl : OxLib) (graph : Graph)
    (orig_node : Nat) (radius : ℚ) :
    ∀ (rows : List Row) (acc : Option Row × WithTop ℚ),
    (nearestAcc nxl oxl graph orig_node radius rows acc).2 =
      min acc.2 (minEligible nxl oxl graph orig_node radius rows) := by
  intro rows
  induction rows with
  | nil => intro acc; simp [nearestAcc, minEligible]
  | cons row rest ih =>
    intro acc
    rw [minEligible_cons]
    simp only [nearestAcc]
    by_cases hle : (routeOf nxl oxl graph orig_node row).2 ≤ (radius : WithTop ℚ)
    · rw [if_pos hle]
      by_cases hlt : (routeOf nxl oxl graph orig_node row).2 < acc.2
      · rw [if_pos ⟨hle, hlt⟩, ih, ← min_assoc, min_eq_right (le_of_lt hlt)]
      · rw [if_neg (fun h => hlt h.2), ih, ← min_assoc,
          min_eq_left (le_of_not_lt hlt)]
    · rw [if_neg hle, if_neg (fun h => hle h.1), ih]

lemma nearestAcc_inv (nxl : NxLib) (oxl : OxLib) (graph : Graph)
    (orig_node : Nat) (radius : ℚ) (Q : Row → Prop) :
    ∀ (rows : List Row) (acc : Option Row × WithTop ℚ),
    (acc.1 = none ∧ acc.2 = ⊤ ∨
      ∃ r, Q r ∧ acc.1 = some r ∧
        (routeOf nxl oxl graph orig_node r).2 = acc.2 ∧
        acc.2 ≤ (radius : WithTop ℚ)) →
    (∀ r ∈ rows, Q r) →
    ((nearestAcc nxl oxl graph orig_node radius rows acc).1 = none ∧
        (nearestAcc nxl oxl graph orig_node radius rows acc).2 = ⊤ ∨
      ∃ r, Q r ∧ (nearestAcc nxl oxl graph orig_node radius rows acc).1 = some r ∧
        (routeOf nxl oxl graph orig_node r).2 =
          (nearestAcc nxl oxl graph orig_node radius rows acc).2 ∧
        (nearestAcc nxl oxl graph orig_node radius rows acc).2 ≤ (radius : WithTop ℚ)) := by
  intro rows
  induction rows with
  | nil => intro acc h _; simpa [nearestAcc] using h
  | cons row rest ih =>
    intro acc h hQ
    simp only [nearestAcc]
    by_cases hc : (routeOf nxl oxl graph orig_node row).2 ≤ (radius : WithTop ℚ) ∧
        (routeOf nxl oxl graph orig_node row).2 < acc.2
    · rw [if_pos hc]
      refine ih _ ?_ (fun r hr => hQ r (List.mem_cons_of_mem _ hr))
      exact Or.inr ⟨row, hQ row (List.mem_cons_self _ _), rfl, rfl, hc.1⟩
    · rw [if_neg hc]
      exact ih _ h (fun r hr => hQ r (List.mem_cons_of_mem _ hr))

lemma foldr_min_le_of_mem {l : List (WithTop ℚ)} {x : WithTop ℚ} (hx : x ∈ l) :
    l.foldr min ⊤ ≤ x := by
  induction l with
  | nil => cases hx
  | cons a l ih =>
    rcases List.mem_cons.mp hx with h | h
    · subst h; exact min_le_left _ _
    · exact le_trans (min_le_right _ _) (ih h)

lemma minEligible_le (nxl : NxLib) (oxl : OxLib) (graph : Graph)
    (orig_node : Nat) (radius : ℚ) (rows : List Row) (r : Row)
    (hmem : r ∈ rows)
    (hrad : (routeOf nxl oxl graph orig_node r).2 ≤ (radius : WithTop ℚ)) :
    minEligible nxl oxl graph orig_node radius rows ≤
      (routeOf nxl oxl graph orig_node r).2 := by
  apply foldr_min_le_of_mem
  apply List.mem_filter.mpr
  exact ⟨List.mem_map_of_mem _ hmem, by simpa using hrad⟩

lemma rowMapElems_countP_circle (nxl : NxLib) (oxl : OxLib) (graph : Graph)
    (orig_node : Nat) (ty : String) (rows : List Row) :
    (rowMapElems nxl oxl graph orig_node ty rows).countP MapElem.isCircleElem =
      rows.length := by
  induction rows with
  | nil => simp [rowMapElems]
  | cons row rest ih =>
    simp only [rowMapElems, List.flatMap_cons, List.countP_append] at ih ⊢
    rw [ih]
    by_cases h : (routeOf nxl oxl graph orig_node row).1 = [] <;>
      simp [h, List.countP_cons, MapElem.isCircleElem, Nat.add_comm]

lemma rowMapElems_countP_polyline (nxl : NxLib) (oxl : OxLib) (graph : Graph)
    (orig_node : Nat) (ty : String) (rows : List Row) :
    (rowMapElems nxl oxl graph orig_node ty rows).countP MapElem.isPolylineElem =
      rows.countP (fun r => !((routeOf nxl oxl graph orig_node r).1.isEmpty)) := by
  induction rows with
  | nil => simp [rowMapElems]
  | cons row rest ih =>
    simp only [rowMapElems, List.flatMap_cons, List.countP_append, List.countP_cons] at ih ⊢
    rw [ih]
    by_cases h : (routeOf nxl oxl graph orig_node row).1 = [] <;>
      simp [h, List.countP_cons, MapElem.isPolylineElem, List.isEmpty_iff, Nat.add_comm]

lemma rowMapElems_no_marker (nxl : NxLib) (oxl : OxLib) (graph : Graph)
    (orig_node : Nat) (ty : String) (rows : List Row) (e : MapElem)
    (he : e ∈ rowMapElems nxl oxl graph orig_node ty rows) :
    e.isMarkerElem = false := by
  induction rows with
  | nil => simp [rowMapElems] at he
  | cons row rest ih =>
    simp only [rowMapElems, List.flatMap_cons, List.mem_append] at he
    rcases he with (h | h) | h
    · by_cases hr : (routeOf nxl oxl graph orig_node row).1 = []
      · simp [hr] at h
      · simp only [hr, if_false, List.mem_singleton] at h
        subst h; rfl
    · simp only [List.mem_singleton] at h
      subst h; rfl
    · exact ih h

/-! ## Lemmas about the outer loop -/

lemma processType_fst (nxl : NxLib) (oxl : OxLib) (graph : Graph)
    (orig_node : Nat) (radius : ℚ) (gdf : List Row) (ty : String) :
    (processType nxl oxl graph orig_node radius gdf ty).1 =
      rowMapElems nxl oxl graph orig_node ty
        (gdf.filter (fun r => r.amenity == ty)) := by
  simp [processType, processRows_eq]

lemma processType_snd (nxl : NxLib) (oxl : OxLib) (graph : Graph)
    (orig_node : Nat) (radius : ℚ) (gdf : List Row) (ty : String) :
    (processType nxl oxl graph orig_node radius gdf ty).2 =
      (nearestAcc nxl oxl graph orig_node radius
        (gdf.filter (fun r => r.amenity == ty)) (none, ⊤)).1.map (fun r =>
        { amenity := pyCapitalize ty,
          nearestName := r.name.getD "Unnamed",
          distanceMeters := (nearestAcc nxl oxl graph orig_node radius
            (gdf.filter (fun r => r.amenity == ty)) (none, ⊤)).2,
          totalWithinRadius := (gdf.filter (fun r => r.amenity == ty)).length }) := by
  simp [processType, processRows_eq]

lemma foldl_append_pair {α β γ : Type} (f : γ → List α) (g : γ → List β) :
    ∀ (types : List γ) (a : List α) (b : List β),
    types.foldl (fun acc ty => (acc.1 ++ f ty, acc.2 ++ g ty)) (a, b) =
      (a ++ types.flatMap f, b ++ types.flatMap g) := by
  intro types
  induction types with
  | nil => intro a b; simp
  | cons ty rest ih =>
    intro a b
    simp only [List.foldl_cons, List.flatMap_cons]
    rw [ih]
    simp [List.append_assoc]

lemma flatMap_toList_eq_filterMap {α β : Type} (g : α → Option β) (l : List α) :
    l.flatMap (fun x => (g x).toList) = l.filterMap g := by
  induction l with
  | nil => simp
  | cons x rest ih =>
    cases h : g x <;> simp [List.flatMap_cons, h, ih, List.filterMap_cons]

/-- All map elements the outer loop adds, type by type. -/
def generatedElems (nxl : NxLib) (oxl : OxLib) (graph : Graph)
    (orig_node : Nat) (radius : ℚ) (gdf : List Row) : List MapElem :=
  (uniqueKeepFirst (gdf.map (·.amenity))).flatMap
    (fun ty => (processType nxl oxl graph orig_node radius gdf ty).1)

/-- The facility table the outer loop builds, type by type. -/
def generatedTable (nxl : NxLib) (oxl : OxLib) (graph : Graph)
    (orig_node : Nat) (radius : ℚ) (gdf : List Row) : List FacilityRow :=
  (uniqueKeepFirst (gdf.map (·.amenity))).filterMap
    (fun ty => (processType nxl oxl graph orig_node radius gdf ty).2)

lemma generate_eq (nxl : NxLib) (oxl : OxLib) (m : FoliumMap) (point : ℚ × ℚ)
    (gdf : List Row) (graph : Graph) (orig_node : Nat) (radius : ℚ) :
    generate_facility_insights_and_add_routes nxl oxl m point gdf graph orig_node radius =
      ({ m with elems := m.elems ++ generatedElems nxl oxl graph orig_node radius gdf },
       generatedTable nxl oxl graph orig_node radius gdf) := by
  unfold generate_facility_insights_and_add_routes generatedElems generatedTable
  simp only [foldl_append_pair, flatMap_toList_eq_filterMap]
  simp

/-! ## Lemmas about `uniqueKeepFirst` -/

lemma mem_uniqueKeepFirst : ∀ (l : List String) (x : String),
    x ∈ uniqueKeepFirst l ↔ x ∈ l := by
  intro l
  induction l using uniqueKeepFirst.induct with
  | case1 => intro x; simp [uniqueKeepFirst]
  | case2 a as ih =>
    intro x
    simp only [uniqueKeepFirst, List.mem_cons, ih, List.mem_filter]
    by_cases hx : x = a
    · simp [hx]
    · simp [hx]

lemma nodup_uniqueKeepFirst : ∀ (l : List String),
    (uniqueKeepFirst l).Nodup := by
  intro l
  induction l using uniqueKeepFirst.induct with
  | case1 => simp [uniqueKeepFirst]
  | case2 a as ih =>
    simp only [uniqueKeepFirst, List.nodup_cons]
    refine ⟨fun hmem => ?_, ih⟩
    rw [mem_uniqueKeepFirst] at hmem
    simp at hmem

lemma countP_partition {α : Type} (q p : α → Bool) (l : List α) :
    l.countP p = (l.filter q).countP p + (l.filter (fun x => !(q x))).countP p := by
  induction l with
  | nil => simp
  | cons x rest ih =>
    by_cases hq : q x <;>
      by_cases hp : p x <;>
        simp [List.filter_cons, hq, hp, List.countP_cons, ih] <;> omega

/-- Each row of the GeoDataFrame is visited by exactly one iteration of
the outer loop: summing any per-row count over the per-type filtered
frames gives the count over the whole frame. -/
lemma sum_countP_by_type (p : Row → Bool) :
    ∀ (n : ℕ) (gdf : List Row), gdf.length ≤ n →
    ((uniqueKeepFirst (gdf.map (·.amenity))).map
      (fun ty => (gdf.filter (fun r => r.amenity == ty)).countP p)).sum =
      gdf.countP p := by
  intro n
  induction n with
  | zero =>
    intro gdf hlen
    have hnil : gdf = [] := List.eq_nil_of_length_eq_zero (Nat.le_zero.mp hlen)
    subst hnil
    simp [uniqueKeepFirst]
  | succ n ih =>
    intro gdf hlen
    match gdf with
    | [] => simp [uniqueKeepFirst]
    | r :: rest =>
      have hfm : (rest.map (·.amenity)).filter (fun x => x != r.amenity) =
          (rest.filter (fun x => x.amenity != r.amenity)).map (·.amenity) := by
        rw [List.filter_map]
        rfl
      have hlen' : (rest.filter (fun x => x.amenity != r.amenity)).length ≤ n := by
        have := List.length_filter_le (fun x => x.amenity != r.amenity) rest
        simp only [List.length_cons, Nat.succ_le_succ_iff] at hlen
        omega
      have hih := ih (rest.filter (fun x => x.amenity != r.amenity)) hlen'
      simp only [List.map_cons, uniqueKeepFirst, hfm] at *
      -- pointwise rewrite of the per-type counts over the remaining types
      have hpt : ∀ ty ∈ uniqueKeepFirst
          ((rest.filter (fun x => x.amenity != r.amenity)).map (·.amenity)),
          ((r :: rest).filter (fun row => row.amenity == ty)).countP p =
            (((rest.filter (fun x => x.amenity != r.amenity)).filter
              (fun row => row.amenity == ty)).countP p) := by
        intro ty hty
        have htymem : ty ∈ (rest.filter (fun x => x.amenity != r.amenity)).map (·.amenity) :=
          (mem_uniqueKeepFirst _ _).mp hty
        obtain ⟨x, hxmem, hxeq⟩ := List.mem_map.mp htymem
        have hxne : x.amenity != r.amenity := (List.mem_filter.mp hxmem).2
        have htyne : ty ≠ r.amenity := by
          intro hcontra
          rw [← hxeq] at hcontra
          simp [hcontra] at hxne
        have hhead : ((r :: rest).filter (fun row => row.amenity == ty)) =
            rest.filter (fun row => row.amenity == ty) := by
          rw [List.filter_cons]
          have : (r.amenity == ty) = false := by
            simpa using fun hcontra => htyne hcontra.symm
          simp [this]
        rw [hhead, List.filter_filter]
        congr 1
        apply List.filter_congr
        intro x _
        by_cases hx : x.amenity = ty
        · simp [hx, htyne]
        · simp [hx]
      rw [List.map_congr_left hpt, List.sum_cons, hih]
      have hfirst : ((r :: rest).filter (fun row => row.amenity == r.amenity)).countP p =
          (if p r then 1 else 0) + (rest.filter (fun row => row.amenity == r.amenity)).countP p := by
        rw [List.filter_cons]
        simp only [beq_self_eq_true, if_true]
        rw [List.countP_cons]
        omega
      have hsplit := countP_partition (fun row : Row => row.amenity == r.amenity) p rest
      have hneg : (rest.filter (fun x => !(x.amenity == r.amenity))) =
          (rest.filter (fun x => x.amenity != r.amenity)) := by
        apply List.filter_congr
        intro x _
        simp [bne]
      rw [hneg] at hsplit
      rw [hfirst, List.countP_cons, hsplit]
      omega

lemma countP_flatMap {α β : Type} (p : β → Bool) (f : α → List β) (l : List α) :
    (l.flatMap f).countP p = (l.map (fun x => (f x).countP p)).sum := by
  induction l with
  | nil => simp
  | cons x rest ih => simp [List.flatMap_cons, List.countP_append, ih]

lemma generatedElems_countP_circle (nxl : NxLib) (oxl : OxLib) (graph : Graph)
    (orig_node : Nat) (radius : ℚ) (gdf : List Row) :
    (generatedElems nxl oxl graph orig_node radius gdf).countP MapElem.isCircleElem =
      gdf.length := by
  unfold generatedElems
  rw [countP_flatMap]
  have hpt : ∀ ty ∈ uniqueKeepFirst (gdf.map (·.amenity)),
      ((processType nxl oxl graph orig_node radius gdf ty).1).countP MapElem.isCircleElem =
        (gdf.filter (fun r => r.amenity == ty)).countP (fun _ => true) := by
    intro ty _
    rw [processType_fst, rowMapElems_countP_circle]
    simp
  rw [List.map_congr_left hpt,
    sum_countP_by_type (fun _ => true) gdf.length gdf (le_refl _)]
  simp

lemma generatedElems_countP_polyline (nxl : NxLib) (oxl : OxLib) (graph : Graph)
    (orig_node : Nat) (radius : ℚ) (gdf : List Row) :
    (generatedElems nxl oxl graph orig_node radius gdf).countP MapElem.isPolylineElem =
      gdf.countP (fun r => !((routeOf nxl oxl graph orig_node r).1.isEmpty)) := by
  unfold generatedElems
  rw [countP_flatMap]
  have hpt : ∀ ty ∈ uniqueKeepFirst (gdf.map (·.amenity)),
      ((processType nxl oxl graph orig_node radius gdf ty).1).countP MapElem.isPolylineElem =
        (gdf.filter (fun r => r.amenity == ty)).countP
          (fun r => !((routeOf nxl oxl graph orig_node r).1.isEmpty)) := by
    intro ty _
    rw [processType_fst, rowMapElems_countP_polyline]
  rw [List.map_congr_left hpt,
    sum_countP_by_type (fun r => !((routeOf nxl oxl graph orig_node r).1.isEmpty))
      gdf.length gdf (le_refl _)]

lemma generatedElems_no_marker (nxl : NxLib) (oxl : OxLib) (graph : Graph)
    (orig_node : Nat) (radius : ℚ) (gdf : List Row) (e : MapElem)
    (he : e ∈ generatedElems nxl oxl graph orig_node radius gdf) :
    e.isMarkerElem = false := by
  unfold generatedElems at he
  obtain ⟨ty, _, hmem⟩ := List.mem_flatMap.mp he
  rw [processType_fst] at hmem
  exact rowMapElems_no_marker nxl oxl graph orig_node ty _ e hmem

lemma create_map_some (nxl : NxLib) (oxl : OxLib) (lat lon radius : ℚ)
    (gdf : List Row) (g : Graph) (o : Nat) :
    create_map nxl oxl lat lon radius (some gdf) (some g) (some o) =
      ({ location := (lat, lon), zoom_start := 14,
         elems := MapElem.marker (lat, lon) "Property Location" false ::
           generatedElems nxl oxl g o radius gdf },
       generatedTable nxl oxl g o radius gdf) := by
  simp [create_map, generate_eq]

lemma create_map_loc (nxl : NxLib) (oxl : OxLib) (lat lon radius : ℚ)
    (gdf_amenities : Option (List Row)) (graph : Option Graph)
    (orig_node : Option Nat) :
    (create_map nxl oxl lat lon radius gdf_amenities graph orig_node).1.location =
      (lat, lon) ∧
    (create_map nxl oxl lat lon radius gdf_amenities graph orig_node).1.zoom_start = 14 := by
  cases gdf_amenities <;> cases graph <;> cases orig_node <;>
    simp [create_map, generate_eq]

/-! ## The claims -/

/-- C1: for every amenity geometry, `calculate_route` computes a walking
route from the property's origin node to the graph node nearest the
amenity's geometry (taking the centroid first when the geometry is a
Polygon), as the shortest path weighted by edge attribute `length` over
the graph fetched with `network_type='walk'`, and returns the route's
`(lat, lon)` node coordinates together with its length. -/
theorem C1_route_walk_shortest_path (nxl : NxLib) (oxl : OxLib)
    (place_point : ℚ × ℚ) (radius : ℚ) (orig_node : Nat) (g : Geometry)
    (p : Pt) (poly : Poly) :
    fetch_graph oxl place_point radius =
      oxl.graph_from_point place_point radius "walk" ∧
    calculate_route nxl oxl (fetch_graph oxl place_point radius) orig_node g =
      routeSpecForm nxl oxl (fetch_graph oxl place_point radius) orig_node g ∧
    destPointOf (Geometry.polygon poly) = poly.centroid ∧
    destPointOf (Geometry.point p) = p := by
  refine ⟨rfl, ?_, rfl, rfl⟩
  cases g <;> rfl

/-- C3: the only failure handling is showing an error message: on a
non-200 property-list response `fetch_property_list` reports an error and
returns `[]`; on a non-200 detail response `fetch_property_details`
reports an error and returns the empty dict; on 200 each returns the
parsed JSON body unchanged with no error. -/
theorem C3_fetch_error_handling (respL : HttpResponse (List Property))
    (respD : HttpResponse PropertyDetails) :
    (respL.status_code ≠ 200 → fetch_property_list respL = ([], true)) ∧
    (respL.status_code = 200 → fetch_property_list respL = (respL.json, false)) ∧
    (respD.status_code ≠ 200 →
      fetch_property_details respD = (PropertyDetails.empty, true)) ∧
    (respD.status_code = 200 →
      fetch_property_details respD = (respD.json, false)) := by
  refine ⟨?_, ?_, ?_, ?_⟩ <;> intro h <;>
    simp [fetch_property_list, fetch_property_details, h]

theorem C3_fetch_error_handling_witness :
    fetch_property_list ⟨404, [⟨1, "Home", "home"⟩]⟩ = ([], true) ∧
    fetch_property_list ⟨200, [⟨1, "Home", "home"⟩]⟩ = ([⟨1, "Home", "home"⟩], false) ∧
    fetch_property_details ⟨500, ⟨none, some "27.7,85.3", []⟩⟩ =
      (PropertyDetails.empty, true) ∧
    fetch_property_details ⟨200, ⟨none, some "27.7,85.3", []⟩⟩ =
      (⟨none, some "27.7,85.3", []⟩, false) :=
  ⟨(C3_fetch_error_handling ⟨404, [⟨1, "Home", "home"⟩]⟩
      ⟨500, ⟨none, some "27.7,85.3", []⟩⟩).1 (by decide),
   (C3_fetch_error_handling ⟨200, [⟨1, "Home", "home"⟩]⟩
      ⟨200, ⟨none, some "27.7,85.3", []⟩⟩).2.1 rfl,
   (C3_fetch_error_handling ⟨404, [⟨1, "Home", "home"⟩]⟩
      ⟨500, ⟨none, some "27.7,85.3", []⟩⟩).2.2.1 (by decide),
   (C3_fetch_error_handling ⟨200, [⟨1, "Home", "home"⟩]⟩
      ⟨200, ⟨none, some "27.7,85.3", []⟩⟩).2.2.2 rfl⟩

/-- C4: both HTTP GET calls go to the fixed backend host
`backend.lalpurjanepal.com.np`, and both fetchers are cached: within a
session, a second invocation with the same argument returns the first
call's value and leaves the cache unchanged (calling twice equals
calling once). -/
theorem C4_fixed_host_and_cached (net : HttpResponse (List Property))
    (netD : Nat → HttpResponse PropertyDetails)
    (cacheL : Option (List Property)) (cacheD : List (Nat × PropertyDetails))
    (property_id : Nat) :
    (∃ rest, property_list_url = "https://backend.lalpurjanepal.com.np/" ++ rest) ∧
    property_detail_url_template =
      "https://backend.lalpurjanepal.com.np/properties/properties/" ++ "\x7b\x7d" ∧
    (∀ id_str, property_detail_url id_str =
      "https://backend.lalpurjanepal.com.np/" ++ ("properties/properties/" ++ id_str)) ∧
    cachedFetchList net (cachedFetchList net cacheL).2 = cachedFetchList net cacheL ∧
    cachedFetchDetails netD (cachedFetchDetails netD cacheD property_id).2 property_id =
      cachedFetchDetails netD cacheD property_id := by
  refine ⟨⟨"properties/all-properties/", by decide⟩, by decide, ?_, ?_, ?_⟩
  · intro id_str
    have hsplit : "https://backend.lalpurjanepal.com.np/" ++ "properties/properties/" =
        "https://backend.lalpurjanepal.com.np/properties/properties/" := by decide
    rw [← String.append_assoc, hsplit]
    rfl
  · cases cacheL <;> rfl
  · unfold cachedFetchDetails
    cases h : cacheD.lookup property_id with
    | some v => simp [h]
    | none => simp [h, List.lookup]

/-- C6: under the precondition that a fetched amenity's geometry is a
Point or a Polygon, the marker-placement branch always binds coordinates
for the row — the point's own `(y, x)` for a Point and the centroid's
`(y, x)` for a Polygon — so the `CircleMarker` construction never reads
an unbound coordinate variable; moreover the geometries the app's rows
carry always produce the coordinates `generate_facility_insights_and_add_routes`
uses. -/
theorem C6_marker_coords_defined (g : ShapelyGeom)
    (h : g ≠ ShapelyGeom.otherGeom) :
    (markerCoords g).isSome = true ∧
    (∀ p, g = ShapelyGeom.point p → markerCoords g = some (p.y, p.x)) ∧
    (∀ poly, g = ShapelyGeom.polygon poly →
      markerCoords g = some (poly.centroid.y, poly.centroid.x)) ∧
    (∀ geo : Geometry, markerCoords geo.toShapely = some (amenityCoords geo)) := by
  refine ⟨?_, ?_, ?_, ?_⟩
  · cases g with
    | point p => rfl
    | polygon poly => rfl
    | otherGeom => exact absurd rfl h
  · intro p hp; subst hp; rfl
  · intro poly hp; subst hp; rfl
  · intro geo; cases geo <;> rfl

theorem C6_marker_coords_defined_witness :
    ShapelyGeom.point ⟨85, 27⟩ ≠ ShapelyGeom.otherGeom ∧
    markerCoords (ShapelyGeom.point ⟨85, 27⟩) = some (27, 85) :=
  ⟨by decide,
   (C6_marker_coords_defined (ShapelyGeom.point ⟨85, 27⟩) (by decide)).2.1 ⟨85, 27⟩ rfl⟩

/-! ## Concrete library instances, used to evaluate the embedding -/

/-- A tiny concrete graph. -/
def wGraph : Graph := { nodeY := fun n => (n : ℚ), nodeX := fun n => (n : ℚ) + 1 }

/-- A concrete `osmnx` instance. -/
def wOx : OxLib :=
  { graph_from_point := fun _ _ _ => wGraph,
    nearest_nodes := fun _ x _ => if x ≤ 5 then 0 else 1 }

/-- A concrete `networkx` instance where every pair of nodes is
connected. -/
def wNx : NxLib :=
  { shortest_path := fun _ a b _ => if a = b then some [a] else some [a, b],
    shortest_path_length := fun _ a b _ => if a = b then 0 else 100 }

/-- A concrete `networkx` instance where no pair of nodes is connected. -/
def wNxNoPath : NxLib :=
  { shortest_path := fun _ _ _ _ => none,
    shortest_path_length := fun _ _ _ _ => 0 }

/-- A concrete details dict with a location. -/
def wDetails : PropertyDetails := ⟨none, some "27.7,85.3", []⟩

/-- Concrete script inputs with one property and nothing selected. -/
def wInputs : AppInputs :=
  { netList := ⟨200, [⟨1, "Home", "home"⟩]⟩,
    netDetail := fun _ => ⟨200, wDetails⟩,
    parseFloat := fun s => if s = "27.7" then 277/10 else 853/10,
    world := ⟨[], fun _ _ => 0⟩,
    oxl := wOx, nxl := wNx,
    selectedTitle := "Home", radius := 1000, selected_amenities := [] }

/-- C5: `create_map` returns a map centered exactly at `[lat, lon]` with
zoom level 14 and a single non-draggable marker placed at that same
location, independently of whether amenities, graph, or origin node are
provided. -/
theorem C5_map_center_zoom_marker (nxl : NxLib) (oxl : OxLib)
    (lat lon radius : ℚ) (gdf_amenities : Option (List Row))
    (graph : Option Graph) (orig_node : Option Nat) :
    (create_map nxl oxl lat lon radius gdf_amenities graph orig_node).1.location =
      (lat, lon) ∧
    (create_map nxl oxl lat lon radius gdf_amenities graph orig_node).1.zoom_start = 14 ∧
    (create_map nxl oxl lat lon radius gdf_amenities graph orig_node).1.elems.countP
      MapElem.isMarkerElem = 1 ∧
    (∀ loc tt dr, MapElem.marker loc tt dr ∈
        (create_map nxl oxl lat lon radius gdf_amenities graph orig_node).1.elems →
      loc = (lat, lon) ∧ dr = false) := by
  match gdf_amenities, graph, orig_node with
  | some gdf, some g, some o =>
    rw [create_map_some]
    refine ⟨rfl, rfl, ?_, ?_⟩
    · have h0 : (generatedElems nxl oxl g o radius gdf).countP MapElem.isMarkerElem = 0 :=
        List.countP_eq_zero.mpr (fun e he hmark => by
          have hfalse := generatedElems_no_marker nxl oxl g o radius gdf e he
          rw [hfalse] at hmark
          cases hmark)
      simp [List.countP_cons, h0, MapElem.isMarkerElem]
    · intro loc tt dr hmem
      rcases List.mem_cons.mp hmem with heq | hgen
      · rw [MapElem.marker.injEq] at heq
        exact ⟨heq.1, heq.2.2⟩
      · have hfalse := generatedElems_no_marker nxl oxl g o radius gdf _ hgen
        cases hfalse
  | none, g?, o? =>
    refine ⟨rfl, rfl, by simp [create_map, List.countP_cons, MapElem.isMarkerElem], ?_⟩
    intro loc tt dr hmem
    simp only [create_map, List.mem_singleton] at hmem
    rw [MapElem.marker.injEq] at hmem
    exact ⟨hmem.1, hmem.2.2⟩
  | some gdf, none, o? =>
    refine ⟨rfl, rfl, by simp [create_map, List.countP_cons, MapElem.isMarkerElem], ?_⟩
    intro loc tt dr hmem
    simp only [create_map, List.mem_singleton] at hmem
    rw [MapElem.marker.injEq] at hmem
    exact ⟨hmem.1, hmem.2.2⟩
  | some gdf, some g, none =>
    refine ⟨rfl, rfl, by simp [create_map, List.countP_cons, MapElem.isMarkerElem], ?_⟩
    intro loc tt dr hmem
    simp only [create_map, List.mem_singleton] at hmem
    rw [MapElem.marker.injEq] at hmem
    exact ⟨hmem.1, hmem.2.2⟩

theorem C5_map_center_zoom_marker_witness :
    (create_map wNx wOx 27 85 1000 none none none).1.location = ((27 : ℚ), (85 : ℚ)) ∧
    (((27 : ℚ), (85 : ℚ)) = ((27 : ℚ), (85 : ℚ)) ∧ false = false) :=
  ⟨(C5_map_center_zoom_marker wNx wOx 27 85 1000 none none none).1,
   (C5_map_center_zoom_marker wNx wOx 27 85 1000 none none none).2.2.2
     (27, 85) "Property Location" false (by decide)⟩

/-- C8: when no path connects the origin and destination nodes,
`calculate_route` catches the no-path exception and returns an empty
coordinate list with route length infinity; such an amenity contributes
no polyline to the map and is never selected as the nearest of its type,
since infinity exceeds every radius. -/
theorem C8_no_path_infinite (nxl : NxLib) (oxl : OxLib) (graph : Graph)
    (orig_node : Nat) (geom : Geometry) (radius : ℚ) (ty : String)
    (row : Row) (acc : Option Row × WithTop ℚ)
    (hrow : row.geometry = geom)
    (hnopath : nxl.shortest_path graph orig_node
      (oxl.nearest_nodes graph (destPointOf geom).x (destPointOf geom).y)
      "length" = none) :
    calculate_route nxl oxl graph orig_node geom = ([], ⊤) ∧
    ¬((⊤ : WithTop ℚ) ≤ ((radius : ℚ) : WithTop ℚ)) ∧
    nearestAcc nxl oxl graph orig_node radius [row] acc = acc ∧
    rowMapElems nxl oxl graph orig_node ty [row] =
      [MapElem.circleMarker (amenityCoords row.geometry) 6 (markerColorGet ty)
        (markerColorGet ty) (7/10) (pyCapitalize ty)] := by
  have hroute : calculate_route nxl oxl graph orig_node geom = ([], ⊤) := by
    simp only [calculate_route, hnopath]
  refine ⟨hroute, WithTop.not_top_le_coe radius, ?_, ?_⟩
  · have hlen : (routeOf nxl oxl graph orig_node row).2 = ⊤ := by
      unfold routeOf
      rw [hrow, hroute]
    simp only [nearestAcc, hlen]
    rw [if_neg (fun hc => WithTop.not_top_le_coe radius hc.1)]
  · have hcoords : (routeOf nxl oxl graph orig_node row).1 = [] := by
      unfold routeOf
      rw [hrow, hroute]
    simp [rowMapElems, hcoords]

theorem C8_no_path_infinite_witness :
    calculate_route wNxNoPath wOx wGraph 0 (Geometry.point ⟨1, 2⟩) = ([], ⊤) ∧
    nearestAcc wNxNoPath wOx wGraph 0 1000
      [⟨"hospital", none, Geometry.point ⟨1, 2⟩⟩] (none, ⊤) = (none, ⊤) :=
  ⟨(C8_no_path_infinite wNxNoPath wOx wGraph 0 (Geometry.point ⟨1, 2⟩) 1000
      "hospital" ⟨"hospital", none, Geometry.point ⟨1, 2⟩⟩ (none, ⊤) rfl rfl).1,
   (C8_no_path_infinite wNxNoPath wOx wGraph 0 (Geometry.point ⟨1, 2⟩) 1000
      "hospital" ⟨"hospital", none, Geometry.point ⟨1, 2⟩⟩ (none, ⊤) rfl rfl).2.2.1⟩

/-- C9: the `Total Amenities within radius meters` column of a table row
equals the total number of fetched amenities of that type — the length
of the type-filtered GeoDataFrame — counting every fetched feature of
the type regardless of its walking-route length. -/
theorem C9_total_counts_all_of_type (nxl : NxLib) (oxl : OxLib)
    (graph : Graph) (orig_node : Nat) (radius : ℚ) (gdf : List Row)
    (ty : String) (fr : FacilityRow)
    (h : (processType nxl oxl graph orig_node radius gdf ty).2 = some fr) :
    fr.totalWithinRadius = (gdf.filter (fun r => r.amenity == ty)).length ∧
    fr.totalWithinRadius = gdf.countP (fun r => r.amenity == ty) := by
  rw [processType_snd] at h
  obtain ⟨r, _, hfr⟩ := Option.map_eq_some'.mp h
  constructor
  · rw [← hfr]
  · rw [← hfr]
    simp [List.countP_eq_length_filter]

theorem C9_total_counts_all_of_type_witness :
    (⟨"Hospital", "KMC", (0 : WithTop ℚ), 1⟩ : FacilityRow).totalWithinRadius =
      (([⟨"hospital", some "KMC", Geometry.point ⟨1, 2⟩⟩] : List Row).filter
        (fun r => r.amenity == "hospital")).length :=
  (C9_total_counts_all_of_type wNx wOx wGraph 0 1000
    [⟨"hospital", some "KMC", Geometry.point ⟨1, 2⟩⟩] "hospital"
    ⟨"Hospital", "KMC", (0 : WithTop ℚ), 1⟩ (by decide)).1

/-- C2: the results table has a row for an amenity type iff some amenity
of that type has walking-route length at most the radius; that row is
unique per type and reports the name and route length of an amenity
achieving the minimum route length among those within the radius, while
every amenity of every type gets a map marker and, when a route exists,
a polyline. -/
theorem C2_table_rows_and_overlays (nxl : NxLib) (oxl : OxLib) (m : FoliumMap)
    (point : ℚ × ℚ) (gdf : List Row) (graph : Graph) (orig_node : Nat)
    (radius : ℚ) :
    ((generate_facility_insights_and_add_routes nxl oxl m point gdf graph
        orig_node radius).2 =
      (uniqueKeepFirst (gdf.map (·.amenity))).filterMap
        (fun ty => (processType nxl oxl graph orig_node radius gdf ty).2) ∧
      (uniqueKeepFirst (gdf.map (·.amenity))).Nodup ∧
      (∀ ty, ty ∈ uniqueKeepFirst (gdf.map (·.amenity)) ↔
        ty ∈ gdf.map (·.amenity))) ∧
    (∀ ty, (processType nxl oxl graph orig_node radius gdf ty).2.isSome = true ↔
      ∃ r ∈ gdf, r.amenity = ty ∧
        (routeOf nxl oxl graph orig_node r).2 ≤ (radius : WithTop ℚ)) ∧
    (∀ ty fr, (processType nxl oxl graph orig_node radius gdf ty).2 = some fr →
      fr.amenity = pyCapitalize ty ∧
      fr.distanceMeters ≤ (radius : WithTop ℚ) ∧
      (∃ r ∈ gdf, r.amenity = ty ∧
        (routeOf nxl oxl graph orig_node r).2 = fr.distanceMeters ∧
        fr.nearestName = r.name.getD "Unnamed") ∧
      (∀ r ∈ gdf, r.amenity = ty →
        (routeOf nxl oxl graph orig_node r).2 ≤ (radius : WithTop ℚ) →
        fr.distanceMeters ≤ (routeOf nxl oxl graph orig_node r).2)) ∧
    (generate_facility_insights_and_add_routes nxl oxl m point gdf graph
        orig_node radius).1.elems.countP MapElem.isCircleElem =
      m.elems.countP MapElem.isCircleElem + gdf.length ∧
    (generate_facility_insights_and_add_routes nxl oxl m point gdf graph
        orig_node radius).1.elems.countP MapElem.isPolylineElem =
      m.elems.countP MapElem.isPolylineElem +
        gdf.countP (fun r => !((routeOf nxl oxl graph orig_node r).1.isEmpty)) := by
  refine ⟨⟨?_, nodup_uniqueKeepFirst _, fun ty => mem_uniqueKeepFirst _ ty⟩,
    ?_, ?_, ?_, ?_⟩
  · rw [generate_eq]
    rfl
  · intro ty
    rw [processType_snd, Option.isSome_map']
    have hinv := nearestAcc_inv nxl oxl graph orig_node radius
      (fun r => r ∈ gdf.filter (fun r => r.amenity == ty))
      (gdf.filter (fun r => r.amenity == ty)) (none, ⊤)
      (Or.inl ⟨rfl, rfl⟩) (fun r hr => hr)
    have hsnd := nearestAcc_snd nxl oxl graph orig_node radius
      (gdf.filter (fun r => r.amenity == ty)) (none, ⊤)
    constructor
    · intro hsome
      obtain ⟨r, hr⟩ := Option.isSome_iff_exists.mp hsome
      rcases hinv with ⟨hnone, _⟩ | ⟨r', hQ, _, hlen, hle⟩
      · rw [hr] at hnone
        cases hnone
      · have hmem := List.mem_filter.mp hQ
        exact ⟨r', hmem.1, by simpa using hmem.2, hlen ▸ hle⟩
    · rintro ⟨r, hmem, hty, hle⟩
      have hrf : r ∈ gdf.filter (fun r => r.amenity == ty) :=
        List.mem_filter.mpr ⟨hmem, by simp [hty]⟩
      have hminle := minEligible_le nxl oxl graph orig_node radius _ r hrf hle
      have hacc2 : (nearestAcc nxl oxl graph orig_node radius
          (gdf.filter (fun r => r.amenity == ty)) (none, ⊤)).2 ≤ (radius : WithTop ℚ) := by
        rw [hsnd]
        exact le_trans (min_le_right _ _) (le_trans hminle hle)
      rcases hinv with ⟨_, htop⟩ | ⟨r', _, hsome', _, _⟩
      · exfalso
        rw [htop] at hacc2
        exact WithTop.not_top_le_coe radius hacc2
      · rw [hsome']
        rfl
  · intro ty fr hfr
    rw [processType_snd] at hfr
    obtain ⟨r, hr1, hr2⟩ := Option.map_eq_some'.mp hfr
    have hinv := nearestAcc_inv nxl oxl graph orig_node radius
      (fun r => r ∈ gdf.filter (fun r => r.amenity == ty))
      (gdf.filter (fun r => r.amenity == ty)) (none, ⊤)
      (Or.inl ⟨rfl, rfl⟩) (fun r hr => hr)
    have hsnd := nearestAcc_snd nxl oxl graph orig_node radius
      (gdf.filter (fun r => r.amenity == ty)) (none, ⊤)
    rcases hinv with ⟨hnone, _⟩ | ⟨r', hQ, hsome', hlen, hle⟩
    · rw [hnone] at hr1
      cases hr1
    · rw [hsome'] at hr1
      injection hr1 with hr1
      subst hr1
      subst hr2
      have hmem := List.mem_filter.mp hQ
      refine ⟨rfl, hle, ⟨r', hmem.1, by simpa using hmem.2, hlen, rfl⟩, ?_⟩
      intro r2 hmem2 hty2 hle2
      have hrf2 : r2 ∈ gdf.filter (fun r => r.amenity == ty) :=
        List.mem_filter.mpr ⟨hmem2, by simp [hty2]⟩
      have hminle2 := minEligible_le nxl oxl graph orig_node radius _ r2 hrf2 hle2
      show (nearestAcc nxl oxl graph orig_node radius
        (gdf.filter (fun r => r.amenity == ty)) (none, ⊤)).2 ≤ _
      rw [hsnd]
      exact le_trans (min_le_right _ _) hminle2
  · rw [generate_eq]
    simp only [List.countP_append]
    rw [generatedElems_countP_circle]
  · rw [generate_eq]
    simp only [List.countP_append]
    rw [generatedElems_countP_polyline]

theorem C2_table_rows_and_overlays_witness :
    (processType wNx wOx wGraph 0 1000
      [⟨"hospital", some "KMC", Geometry.point ⟨1, 2⟩⟩] "hospital").2.isSome = true :=
  ((C2_table_rows_and_overlays wNx wOx ⟨(27, 85), 14, []⟩ (27, 85)
      [⟨"hospital", some "KMC", Geometry.point ⟨1, 2⟩⟩] wGraph 0 1000).2.1
    "hospital").mpr
    ⟨⟨"hospital", some "KMC", Geometry.point ⟨1, 2⟩⟩, by decide, rfl, by decide⟩

/-- C7: with at least one amenity type selected, the app fetches exactly
the features tagged `amenity` with a value in the selected set within
`dist = radius` of the property point; with no type selected no amenity
fetch occurs (the output does not depend on the OSM world at all) and
the facility table is empty. -/
theorem C7_amenity_fetch_filter (w : OsmWorld) (point : ℚ × ℚ) (radius : ℚ)
    (selected : List String) (inp : AppInputs) (w1 w2 : OsmWorld)
    (lat lon : ℚ) :
    (∀ f, f ∈ fetch_amenities w point radius selected ↔
      f ∈ w.features ∧ w.distTo point f ≤ radius ∧
        ∃ v ∈ selected, ("amenity", v) ∈ f.tags) ∧
    (inp.selected_amenities = [] →
      (appTab1 inp lat lon).table = [] ∧
      appTab1 { inp with world := w1 } lat lon =
        appTab1 { inp with world := w2 } lat lon) := by
  constructor
  · intro f
    simp only [fetch_amenities, features_from_point, List.mem_filter,
      Bool.and_eq_true, decide_eq_true_eq, matchesTags, List.any_eq_true]
    constructor
    · rintro ⟨hmem, hdist, kv, hkv, t, htmem, hprop⟩
      simp only [List.mem_singleton] at hkv
      subst hkv
      simp only [Bool.and_eq_true, beq_iff_eq] at hprop
      refine ⟨hmem, hdist, t.2, ?_, ?_⟩
      · simpa [List.contains_iff_exists_mem_beq] using hprop.2
      · have ht : ("amenity", t.2) = t := by
          rw [← hprop.1]
        rw [ht]
        exact htmem
    · rintro ⟨hmem, hdist, v, hv, htags⟩
      refine ⟨hmem, hdist, ("amenity", selected), List.mem_singleton.mpr rfl,
        ("amenity", v), htags, ?_⟩
      have hcontains : selected.contains v = true := by
        simp only [List.contains_iff_exists_mem_beq, beq_iff_eq]
        exact ⟨v, hv, rfl⟩
      exact ⟨rfl, hcontains⟩
  · intro h
    constructor
    · simp [appTab1, h, create_map]
    · simp [appTab1, h]

theorem C7_amenity_fetch_filter_witness :
    (appTab1 wInputs 27 85).table = [] :=
  ((C7_amenity_fetch_filter wInputs.world (27, 85) 1000 [] wInputs
      wInputs.world wInputs.world 27 85).2 rfl).1

/-- C10: the session-state keys `latitude_input` and `longitude_input`
are initialized but never read: two runs differing only in them produce
identical output, and the map location is determined solely by the
selected property's `location_value`, with the fixed default
`(27.7172, 85.3240)` when no properties are available or the value is
absent. -/
theorem C10_session_inputs_unused (inp : AppInputs) (ss1 ss2 : SessionStateIn) :
    appRun inp ss1 = appRun inp ss2 ∧
    (∀ out, appRun inp ss1 = some out → some out.map.location = appLatLon inp) ∧
    ((fetch_property_list inp.netList).1 = [] →
      appLatLon inp = some (27.7172, 85.3240)) ∧
    (∀ p ps prop, (fetch_property_list inp.netList).1 = p :: ps →
      (property_options (p :: ps)).reverse.lookup inp.selectedTitle = some prop →
      ((fetch_property_details (inp.netDetail prop.1)).1.location_value = none →
        appLatLon inp = some (27.7172, 85.3240)) ∧
      (∀ lv, (fetch_property_details (inp.netDetail prop.1)).1.location_value =
          some lv →
        appLatLon inp = parseLocationValue inp.parseFloat lv)) := by
  refine ⟨rfl, ?_, ?_, ?_⟩
  · intro out hout
    unfold appRun at hout
    cases happ : appLatLon inp with
    | none => rw [happ] at hout; cases hout
    | some ll =>
      rw [happ] at hout
      injection hout with hout
      subst hout
      have hloc := (create_map_loc inp.nxl inp.oxl ll.1 ll.2 inp.radius
        (if inp.selected_amenities ≠ [] then
          some ((fetch_amenities inp.world (ll.1, ll.2) inp.radius
            inp.selected_amenities).map (fun f =>
              { amenity := (f.tags.lookup "amenity").getD "",
                name := f.tags.lookup "name",
                geometry := f.geometry }))
        else none)
        (some (fetch_graph inp.oxl (ll.1, ll.2) inp.radius))
        (some (inp.oxl.nearest_nodes (fetch_graph inp.oxl (ll.1, ll.2) inp.radius)
          ll.2 ll.1))).1
      show some (appTab1 inp ll.1 ll.2).map.location = some ll
      unfold appTab1
      simp only []
      rw [hloc]
  · intro h
    unfold appLatLon
    rw [h]
  · intro p ps prop hlist hlook
    constructor
    · intro hnone
      unfold appLatLon
      rw [hlist]
      simp only [hlook]
      by_cases ht : ((fetch_property_details (inp.netDetail prop.1)).1).isTruthy = true <;>
        simp [chooseLatLon, ht, hnone]
    · intro lv hsome
      unfold appLatLon
      rw [hlist]
      simp only [hlook]
      have ht : ((fetch_property_details (inp.netDetail prop.1)).1).isTruthy = true := by
        unfold PropertyDetails.isTruthy
        rw [hsome]
        simp
      simp [chooseLatLon, ht, hsome]

theorem C10_session_inputs_unused_witness :
    appRun wInputs ⟨some 1, none⟩ = appRun wInputs ⟨none, some 2⟩ ∧
    appLatLon wInputs = parseLocationValue wInputs.parseFloat "27.7,85.3" :=
  ⟨(C10_session_inputs_unused wInputs ⟨some 1, none⟩ ⟨none, some 2⟩).1,
   ((C10_session_inputs_unused wInputs ⟨some 1, none⟩ ⟨none, some 2⟩).2.2.2
      ⟨1, "Home", "home"⟩ [] (1, "home") rfl (by decide)).2 "27.7,85.3" rfl⟩

end AmenityFinder
